import Mathlib

/-!
Verification of the HTML-to-game-record extraction core of the
GT IM Prediction Market backend (`main.py`).

The markup handed to the parsers is modelled as a tree of element/text
nodes (the shape BeautifulSoup's `html.parser` produces).  CSS-selector
lookups (`select`, `select_one`, `find_all`) search the *descendants* of a
node in document (preorder) order, which is what soupsieve does.  The
comma selector lists used by the source (`'strong.match-team1Score,
.match-team1Score'` and the like) are embedded literally as the
disjunction of their alternatives; `select_one` returns the first
document-order descendant matching any alternative.

A bs4 `Tag` is always truthy (bs4 defines its boolean conversion to be
constantly true), so the source's `if not elem` tests are pure
presence (`None`) checks; they are embedded as `Option` matches.
-/

namespace IM

/-- A parsed markup node: an element with tag name, class list, attribute
list and children, or a text node. -/
inductive Node where
  | elem (tag : String) (classes : List String) (attrs : List (String × String)) (children : List Node)
  | text (s : String)

/-- Shorthand for building element nodes in examples. -/
def el (tag : String) (classes : List String) (attrs : List (String × String))
    (children : List Node) : Node :=
  .elem tag classes attrs children

/-- Shorthand for building text nodes in examples. -/
def txt (s : String) : Node := .text s

/-- The class list of a node (empty for text nodes). -/
def Node.classes : Node → List String
  | .elem _ cs _ _ => cs
  | .text _ => []

/-- Attribute lookup, `Tag.get(name)`: the first binding wins. -/
def Node.attr : Node → String → Option String
  | .elem _ _ kvs _, k => kvs.lookup k
  | .text _, _ => none

/-- Does the node carry the given tag name? -/
def Node.tagIs : Node → String → Bool
  | .elem t _ _ _, w => t == w
  | .text _, _ => false

/-- Does the node's class attribute contain the given class token? -/
def Node.hasClass (n : Node) (c : String) : Bool :=
  n.classes.contains c

/-- Does the pattern occur at the start of the text? -/
def charsMatchAt : List Char → List Char → Bool
  | [], _ => true
  | _ :: _, [] => false
  | p :: ps, c :: cs => p == c && charsMatchAt ps cs

/-- Does the pattern occur anywhere in the text? -/
def charsHaveSub (p : List Char) : List Char → Bool
  | [] => charsMatchAt p []
  | c :: cs => charsMatchAt p (c :: cs) || charsHaveSub p cs

/-- Python `sub in s`. -/
def strContains (s sub : String) : Bool :=
  charsHaveSub sub.data s.data

/-- Python `str.strip()` on a character list (whitespace from both ends). -/
def trimChars (l : List Char) : List Char :=
  ((l.dropWhile Char.isWhitespace).reverse.dropWhile Char.isWhitespace).reverse

/-- Python `str.strip()`. -/
def pyStrip (s : String) : String :=
  ⟨trimChars s.data⟩

/-- Python `str.lower()` for the ASCII text the source handles. -/
def pyLower (s : String) : String :=
  ⟨s.data.map Char.toLower⟩

/-- Python `str.isdigit` restricted to ASCII digits: non-empty and all
digits.  The source's score texts are ASCII. -/
def pyIsdigit (s : String) : Bool :=
  !(s.data.isEmpty) && s.data.all (·.isDigit)

/-- Python truthiness of an optional string (`None` and `""` are falsy). -/
def pyTruthy (o : Option String) : Bool :=
  !(o.getD "" == "")

mutual
/-- All nodes strictly below a node, in document (preorder) order: the
set soupsieve's `select` searches. -/
def Node.descendants : Node → List Node
  | .text _ => []
  | .elem _ _ _ ch => Node.descList ch

/-- Preorder flattening of a forest. -/
def Node.descList : List Node → List Node
  | [] => []
  | n :: ns => n :: Node.descendants n ++ Node.descList ns
end

mutual
/-- `Tag.get_text(strip=True)`: each text fragment stripped, then all
fragments concatenated in document order. -/
def Node.getText : Node → String
  | .text s => pyStrip s
  | .elem _ _ _ ch => Node.getTextList ch

/-- `get_text` over a forest. -/
def Node.getTextList : List Node → String
  | [] => ""
  | n :: ns => Node.getText n ++ Node.getTextList ns
end

/-- `select_one`: first descendant, in document order, satisfying the
selector predicate. -/
def selectOne (t : Node) (p : Node → Bool) : Option Node :=
  t.descendants.find? p

/-- `select`: all descendants, in document order, satisfying the
selector predicate. -/
def selectAll (t : Node) (p : Node → Bool) : List Node :=
  t.descendants.filter p

/-- `a[href*=sub]`: an anchor whose `href` attribute contains `sub`. -/
def anchorHrefContains (n : Node) (sub : String) : Bool :=
  n.tagIs "a" && (match n.attr "href" with
    | some h => strContains h sub
    | none => false)

/-- The `Game` pydantic model of the source, field for field.  Optional
fields the simplified parser does not set default to `none`, as in
pydantic. -/
structure Game where
  game_id : String
  home_team : String
  away_team : String
  home_score : String
  away_score : String
  time : String
  date : Option String
  sport : String
  status : String
  location : Option String
  league : Option String
  home_record : Option String
  away_record : Option String
deriving DecidableEq, Repr

/-! ### Field resolvers of `parse_games_html_with_dates` (detailed layout) -/

/-- Home team element: `div.iml-team-left` then `a.teamHome` inside it,
falling back to `select_one('a.teamHome, .teamHome')` on the whole
container. -/
def homeTeamElemW (g : Node) : Option Node :=
  let cont := selectOne g (fun n => n.tagIs "div" && n.hasClass "iml-team-left")
  let prim := match cont with
    | some c => selectOne c (fun n => n.tagIs "a" && n.hasClass "teamHome")
    | none => none
  match prim with
  | some e => some e
  | none => selectOne g (fun n => (n.tagIs "a" && n.hasClass "teamHome") || n.hasClass "teamHome")

/-- Away team element, mirrored (`div.iml-team-right` / `a.teamAway`). -/
def awayTeamElemW (g : Node) : Option Node :=
  let cont := selectOne g (fun n => n.tagIs "div" && n.hasClass "iml-team-right")
  let prim := match cont with
    | some c => selectOne c (fun n => n.tagIs "a" && n.hasClass "teamAway")
    | none => none
  match prim with
  | some e => some e
  | none => selectOne g (fun n => (n.tagIs "a" && n.hasClass "teamAway") || n.hasClass "teamAway")

/-- Home score text: `select_one('strong.match-team1Score,
.match-team1Score')`, recursive text, `"--"` when absent. -/
def homeScoreTextW (g : Node) : String :=
  match selectOne g (fun n => (n.tagIs "strong" && n.hasClass "match-team1Score") || n.hasClass "match-team1Score") with
  | some e => e.getText
  | none => "--"

/-- Away score text, mirrored. -/
def awayScoreTextW (g : Node) : String :=
  match selectOne g (fun n => (n.tagIs "strong" && n.hasClass "match-team2Score") || n.hasClass "match-team2Score") with
  | some e => e.getText
  | none => "--"

/-- Forfeit detector: the *first* `small.text-muted` descendant of the
container, lower-cased, fuzzy-matched against `forfeit` / `default`. -/
def isForfeitW (g : Node) : Bool :=
  match selectOne g (fun n => n.tagIs "small" && n.hasClass "text-muted") with
  | some e =>
    let t := pyLower e.getText
    strContains t "forfeit" || strContains t "default"
  | none => false

/-- Status classification of the detailed parser: a pure function of the
two score texts and the forfeit flag, returning
(status, home_score, away_score) exactly as the source's branch ladder
assigns them. -/
def classifyW (hs aw : String) (forf : Bool) : String × String × String :=
  if hs == "--" && aw == "--" then
    (if forf then "forfeit" else "scheduled", "--", "--")
  else if pyIsdigit hs && pyIsdigit aw then
    (if forf then "forfeit" else "completed", hs, aw)
  else
    (if forf then "forfeit" else "unknown", hs, aw)

/-- Time resolver: `.time`, default `"TBD"` (same line in both parsers). -/
def resolveTime (g : Node) : String :=
  match selectOne g (fun n => n.hasClass "time") with
  | some e => e.getText
  | none => "TBD"

/-- Sport resolver: text of `a[href*="/sport/"]`, default `"Unknown"`
(same line in both parsers). -/
def resolveSport (g : Node) : String :=
  match selectOne g (fun n => anchorHrefContains n "/sport/") with
  | some e => e.getText
  | none => "Unknown"

/-- League resolver: text of `a[href*="/league/"]`, absent when none
(same line in both parsers). -/
def resolveLeague (g : Node) : Option String :=
  (selectOne g (fun n => anchorHrefContains n "/league/")).map (·.getText)

/-- Location resolver of the detailed parser: `.match-facility` and
`.iml-game-court`, combined as `"{facility}, {court}"`; facility alone;
otherwise absent. -/
def locationW (g : Node) : Option String :=
  match selectOne g (fun n => n.hasClass "match-facility"),
        selectOne g (fun n => n.hasClass "iml-game-court") with
  | some f, some c => some (f.getText ++ ", " ++ c.getText)
  | some f, none => some f.getText
  | none, _ => none

/-- `find_all('div', class_='media')` on the container. -/
def mediaBlocks (g : Node) : List Node :=
  selectAll g (fun n => n.tagIs "div" && n.hasClass "media")

/-- One iteration of the record-resolver loop: given the accumulated
(home_record, away_record), inspect one `.media` block. -/
def recordsAccum (acc : Option String × Option String) (media : Node) :
    Option String × Option String :=
  match selectOne media (fun n => n.hasClass "teamHome" || n.hasClass "teamAway") with
  | none => acc
  | some teamLink =>
    match selectOne media (fun n => n.hasClass "media-body") with
    | none => acc
    | some body =>
      match selectOne body (fun n => n.tagIs "small" && n.hasClass "text-muted") with
      | none => acc
      | some re =>
        let t := re.getText
        if strContains t "-" && strContains t "(" then
          if teamLink.classes.contains "teamHome" then (some t, acc.2)
          else if teamLink.classes.contains "teamAway" then (acc.1, some t)
          else acc
        else acc

/-- Record resolver: fold the loop over all `.media` blocks. -/
def recordsW (g : Node) : Option String × Option String :=
  (mediaBlocks g).foldl recordsAccum (none, none)

/-- The record the detailed parser assembles once both team elements were
found. -/
def mkGameW (g : Node) (currentDate : Option String) (he ae : Node) : Game :=
  let st := classifyW (homeScoreTextW g) (awayScoreTextW g) (isForfeitW g)
  { game_id := (g.attr "data-id").getD ""
    home_team := he.getText
    away_team := ae.getText
    home_score := st.2.1
    away_score := st.2.2
    time := resolveTime g
    date := currentDate
    sport := resolveSport g
    status := st.1
    location := locationW g
    league := resolveLeague g
    home_record := (recordsW g).1
    away_record := (recordsW g).2 }

/-- Per-container body of `parse_games_html_with_dates`: `none` exactly
when a team element is missing (the source's `continue`). -/
def parseGameW (g : Node) (currentDate : Option String) : Option Game :=
  match homeTeamElemW g, awayTeamElemW g with
  | some he, some ae => some (mkGameW g currentDate he ae)
  | _, _ => none

/-- `soup.select('div[gameday]')`: the day sections. -/
def daySections (soup : Node) : List Node :=
  selectAll soup (fun n => n.tagIs "div" && (n.attr "gameday").isSome)

/-- `select('div.match')`: the game containers below a node. -/
def matchContainers (t : Node) : List Node :=
  selectAll t (fun n => n.tagIs "div" && n.hasClass "match")

/-- `parse_games_html_with_dates`: iterate day sections in document
order; within each, parse every `div.match` with the section's `gameday`
date, skipping containers whose team elements are missing. -/
def parseGamesHtmlWithDates (soup : Node) : List Game :=
  (daySections soup).flatMap (fun sec =>
    (matchContainers sec).filterMap (fun g => parseGameW g (sec.attr "gameday")))

/-! ### `parse_games_html` (simplified layout) -/

/-- Home score text of the simplified parser: `.match-team1Score`,
`"--"` when absent. -/
def homeScoreTextS (g : Node) : String :=
  match selectOne g (fun n => n.hasClass "match-team1Score") with
  | some e => e.getText
  | none => "--"

/-- Away score text of the simplified parser. -/
def awayScoreTextS (g : Node) : String :=
  match selectOne g (fun n => n.hasClass "match-team2Score") with
  | some e => e.getText
  | none => "--"

/-- Status ladder of the simplified parser: either score `"--"` means
`scheduled`; otherwise both numeric means `completed`; otherwise
`unknown`.  No forfeit detection. -/
def statusS (hs aw : String) : String :=
  if hs == "--" || aw == "--" then "scheduled"
  else if pyIsdigit hs && pyIsdigit aw then "completed"
  else "unknown"

/-- The record the simplified parser assembles; `home_record` and
`away_record` are never set by this code path. -/
def mkGameS (g : Node) (currentDate : Option String) (he ae : Node) : Game :=
  { game_id := (g.attr "data-id").getD ""
    home_team := he.getText
    away_team := ae.getText
    home_score := homeScoreTextS g
    away_score := awayScoreTextS g
    time := resolveTime g
    date := currentDate
    sport := resolveSport g
    status := statusS (homeScoreTextS g) (awayScoreTextS g)
    location := (selectOne g (fun n => n.hasClass "location" || n.hasClass "venue")).map (·.getText)
    league := resolveLeague g
    home_record := none
    away_record := none }

/-- Per-container body of `parse_games_html`: `select_one('.teamHome')`
and `select_one('.teamAway')` must both be present. -/
def parseGameS (g : Node) (currentDate : Option String) : Option Game :=
  match selectOne g (fun n => n.hasClass "teamHome"),
        selectOne g (fun n => n.hasClass "teamAway") with
  | some he, some ae => some (mkGameS g currentDate he ae)
  | _, _ => none

/-- Date resolution of `parse_games_html`: the supplied `date_str` when
truthy; else the text of `#pNowDate`; else the `gameday` attribute of the
first `[gameday]` element; else whatever falsy value is left. -/
def resolveDateS (soup : Node) (dateStr : Option String) : Option String :=
  let c1 : Option String :=
    if pyTruthy dateStr then dateStr
    else match selectOne soup (fun n => n.attr "id" == some "pNowDate") with
      | some e => some e.getText
      | none => none
  if pyTruthy c1 then c1
  else match selectOne soup (fun n => (n.attr "gameday").isSome) with
    | some e => e.attr "gameday"
    | none => c1

/-- `parse_games_html`: one date for the whole fragment, then every
`div.match` container parsed independently. -/
def parseGamesHtml (soup : Node) (dateStr : Option String) : List Game :=
  let currentDate := resolveDateS soup dateStr
  (matchContainers soup).filterMap (fun g => parseGameS g currentDate)

/-! ### Day aggregator (`fetch_all_games`) -/

/-- One day's fetch+extract, `fetch_games_for_specific_date`: any failure
(or missing `Data`) is caught and becomes the empty list.  A failing
fetch is modelled as `none`. -/
def fetchDay (fetch : Int → Option (List Game)) (d : Int) : List Game :=
  (fetch d).getD []

/-- The `while current_date <= end_date` loop of `fetch_all_games`,
appending each day's records in ascending date order.  Days are modelled
as integers. -/
def aggLoop (fetch : Int → Option (List Game)) (endD : Int) (current : Int) : List Game :=
  if _h : current ≤ endD then
    fetchDay fetch current ++ aggLoop fetch endD (current + 1)
  else []
termination_by (endD + 1 - current).toNat
decreasing_by
  omega

/-- `fetch_all_games`: window from `today - 3` through `today + 7`,
inclusive. -/
def fetchAllGames (today : Int) (fetch : Int → Option (List Game)) : List Game :=
  aggLoop fetch (today + 7) (today - 3)

/-! ### Claim-side predicates -/

/-- Forfeit/default marker text present in a muted/secondary element
*anywhere* in the container (the claim's reading, not the code's): some
`small.text-muted` descendant whose lower-cased text contains `forfeit`
or `default`. -/
def mutedForfeitAnywhereB (g : Node) : Bool :=
  g.descendants.any (fun n => n.tagIs "small" && n.hasClass "text-muted" &&
    (strContains (pyLower n.getText) "forfeit" || strContains (pyLower n.getText) "default"))

/-- The detailed parser skips a container exactly when a team element is
missing. -/
def skipW (g : Node) : Bool :=
  !((homeTeamElemW g).isSome && (awayTeamElemW g).isSome)

/-- The simplified parser skips a container exactly when a team element
is missing. -/
def skipS (g : Node) : Bool :=
  !((selectOne g (fun n => n.hasClass "teamHome")).isSome &&
    (selectOne g (fun n => n.hasClass "teamAway")).isSome)

/-! ### Path-annotated traversal (for the duplicate-extraction analysis)

Each descendant is tagged with its path from the root (the list of child
indices), which serves as the identity of a node occurrence in the
document. -/

mutual
/-- Descendants with paths: `(descendantsP p t).map (·.2) = t.descendants`,
and the first component is the occurrence's path (extending `p`). -/
def descendantsP (p : List Nat) : Node → List (List Nat × Node)
  | .text _ => []
  | .elem _ _ _ ch => descListP p 0 ch

/-- Path-annotated preorder flattening of a forest whose members are the
children `i, i+1, ...` of the node at path `p`. -/
def descListP (p : List Nat) (i : Nat) : List Node → List (List Nat × Node)
  | [] => []
  | n :: ns => (p ++ [i], n) :: descendantsP (p ++ [i]) n ++ descListP p (i + 1) ns
end

/-- The `div[gameday]` day-section selector. -/
def isSectionB (n : Node) : Bool :=
  n.tagIs "div" && (n.attr "gameday").isSome

/-- The `div.match` game-container selector. -/
def isMatchB (n : Node) : Bool :=
  n.tagIs "div" && n.hasClass "match"

/-- Day sections with their paths. -/
def sectionsP (soup : Node) : List (List Nat × Node) :=
  (descendantsP [] soup).filter (fun x => isSectionB x.2)

/-- The container paths one day section contributes. -/
def secPaths (ps : List Nat × Node) : List (List Nat) :=
  ((descendantsP ps.1 ps.2).filter (fun x => isMatchB x.2)).map (fun x => x.1)

/-- Every extraction attempt of `parse_games_html_with_dates`, in the
order the code performs them: the container's path, the container, and
the date passed to the per-container body. -/
def attemptsP (soup : Node) : List (List Nat × Node × Option String) :=
  (sectionsP soup).flatMap (fun ps =>
    ((descendantsP ps.1 ps.2).filter (fun x => isMatchB x.2)).map
      (fun x => (x.1, x.2, ps.2.attr "gameday")))

/-- Path extension test: is `p` an initial segment of the second path? -/
def pathPre : List Nat → List Nat → Bool
  | [], _ => true
  | _ :: _, [] => false
  | a :: as1, b :: bs => a == b && pathPre as1 bs

/-- No path in the list extends another (pairwise). -/
def noNestAux : List (List Nat) → Bool
  | [] => true
  | p :: rest => rest.all (fun q => !pathPre p q && !pathPre q p) && noNestAux rest

/-- No day section of the document lies inside another day section. -/
def sectionsNonNested (soup : Node) : Bool :=
  noNestAux ((sectionsP soup).map (fun x => x.1))

/-! ### Concrete inputs used by counterexamples and witnesses -/

/-- Container whose *second* muted element carries the forfeit marker;
the first muted element is a win-loss record. -/
def gameC1 : Node :=
  el "div" ["match"] [] [
    el "a" ["teamHome"] [] [txt "Alpha"],
    el "a" ["teamAway"] [] [txt "Beta"],
    el "small" ["text-muted"] [] [txt "(3-1-0)"],
    el "small" ["text-muted"] [] [txt "Team A Forfeit"]]

def secC1 : Node := el "div" [] [("gameday", "10/7/2025")] [gameC1]

def soupC1 : Node := el "[document]" [] [] [secC1]

def recC1 : Game :=
  { game_id := "", home_team := "Alpha", away_team := "Beta",
    home_score := "--", away_score := "--", time := "TBD",
    date := some "10/7/2025", sport := "Unknown", status := "scheduled",
    location := none, league := none, home_record := none, away_record := none }

/-- Container with numeric scores and a forfeit marker in its first
muted element, fed to the simplified parser. -/
def gameC2 : Node :=
  el "div" ["match"] [] [
    el "a" ["teamHome"] [] [txt "Gamma"],
    el "a" ["teamAway"] [] [txt "Delta"],
    el "strong" ["match-team1Score"] [] [txt "21"],
    el "strong" ["match-team2Score"] [] [txt "14"],
    el "small" ["text-muted"] [] [txt "Forfeit"]]

def soupC2 : Node := el "[document]" [] [] [gameC2]

def recC2 : Game :=
  { game_id := "", home_team := "Gamma", away_team := "Delta",
    home_score := "21", away_score := "14", time := "TBD",
    date := some "10/5/2025", sport := "Unknown", status := "completed",
    location := none, league := none, home_record := none, away_record := none }

/-- Container with one numeric score and the other score element absent,
fed to the simplified parser. -/
def gameC3 : Node :=
  el "div" ["match"] [] [
    el "a" ["teamHome"] [] [txt "Eps"],
    el "a" ["teamAway"] [] [txt "Zeta"],
    el "strong" ["match-team1Score"] [] [txt "21"]]

def soupC3 : Node := el "[document]" [] [] [gameC3]

def recC3 : Game :=
  { game_id := "", home_team := "Eps", away_team := "Zeta",
    home_score := "21", away_score := "--", time := "TBD",
    date := some "10/6/2025", sport := "Unknown", status := "scheduled",
    location := none, league := none, home_record := none, away_record := none }

/-- Container whose home-team anchor exists but holds only whitespace. -/
def gameC4 : Node :=
  el "div" ["match"] [] [
    el "a" ["teamHome"] [] [txt " "],
    el "a" ["teamAway"] [] [txt "Theta"]]

def soupC4 : Node :=
  el "[document]" [] [] [el "div" [] [("gameday", "10/8/2025")] [gameC4]]

def recC4 : Game :=
  { game_id := "", home_team := "", away_team := "Theta",
    home_score := "--", away_score := "--", time := "TBD",
    date := some "10/8/2025", sport := "Unknown", status := "scheduled",
    location := none, league := none, home_record := none, away_record := none }

/-- One game container inside *nested* day sections. -/
def gameC8 : Node :=
  el "div" ["match"] [] [
    el "a" ["teamHome"] [] [txt "Iota"],
    el "a" ["teamAway"] [] [txt "Kappa"]]

def soupC8 : Node :=
  el "[document]" [] []
    [el "div" [] [("gameday", "10/9/2025")]
      [el "div" [] [("gameday", "10/9/2025")] [gameC8]]]

def recC8 : Game :=
  { game_id := "", home_team := "Iota", away_team := "Kappa",
    home_score := "--", away_score := "--", time := "TBD",
    date := some "10/9/2025", sport := "Unknown", status := "scheduled",
    location := none, league := none, home_record := none, away_record := none }

/-- Document with two *sibling* day sections (the non-nested case). -/
def soupW8 : Node :=
  el "[document]" [] []
    [el "div" [] [("gameday", "10/9/2025")] [gameC8],
     el "div" [] [("gameday", "10/10/2025")] [gameC8]]

/-- Container whose first muted element carries the forfeit marker. -/
def gameW1 : Node :=
  el "div" ["match"] [] [
    el "a" ["teamHome"] [] [txt "HomeA"],
    el "a" ["teamAway"] [] [txt "AwayA"],
    el "small" ["text-muted"] [] [txt "Forfeit"]]

def recW1 : Game :=
  { game_id := "", home_team := "HomeA", away_team := "AwayA",
    home_score := "--", away_score := "--", time := "TBD",
    date := some "10/1/2025", sport := "Unknown", status := "forfeit",
    location := none, league := none, home_record := none, away_record := none }

/-- Container with two numeric scores and no muted element. -/
def gameW2 : Node :=
  el "div" ["match"] [] [
    el "a" ["teamHome"] [] [txt "Hw"],
    el "a" ["teamAway"] [] [txt "Aw"],
    el "strong" ["match-team1Score"] [] [txt "10"],
    el "strong" ["match-team2Score"] [] [txt "8"]]

def recW2 : Game :=
  { game_id := "", home_team := "Hw", away_team := "Aw",
    home_score := "10", away_score := "8", time := "TBD",
    date := some "10/2/2025", sport := "Unknown", status := "completed",
    location := none, league := none, home_record := none, away_record := none }

/-- Container with only the home score element, numeric. -/
def gameW3 : Node :=
  el "div" ["match"] [] [
    el "a" ["teamHome"] [] [txt "Hx"],
    el "a" ["teamAway"] [] [txt "Ax"],
    el "strong" ["match-team1Score"] [] [txt "7"]]

def recW3 : Game :=
  { game_id := "", home_team := "Hx", away_team := "Ax",
    home_score := "7", away_score := "--", time := "TBD",
    date := some "10/3/2025", sport := "Unknown", status := "unknown",
    location := none, league := none, home_record := none, away_record := none }

/-- Containers exercising the three location-resolver cases. -/
def gameC7a : Node :=
  el "div" ["match"] [] [
    el "a" ["teamHome"] [] [txt "H1"],
    el "a" ["teamAway"] [] [txt "A1"],
    el "div" ["match-facility"] [] [txt "Court Complex"],
    el "div" ["iml-game-court"] [] [txt "Court 3"]]

def gameC7b : Node :=
  el "div" ["match"] [] [
    el "a" ["teamHome"] [] [txt "H2"],
    el "a" ["teamAway"] [] [txt "A2"],
    el "div" ["match-facility"] [] [txt "Court Complex"]]

def gameC7c : Node :=
  el "div" ["match"] [] [
    el "a" ["teamHome"] [] [txt "H3"],
    el "a" ["teamAway"] [] [txt "A3"]]

/-- A well-formed container for the isolation witness. -/
def gameW5 : Node :=
  el "div" ["match"] [] [
    el "a" ["teamHome"] [] [txt "Hp"],
    el "a" ["teamAway"] [] [txt "Ap"]]

/-- A container with no team elements at all (skipped). -/
def gameW5bad : Node :=
  el "div" ["match"] [] [el "span" ["time"] [] [txt "6:00 PM"]]

def recC7a : Game :=
  { game_id := "", home_team := "H1", away_team := "A1",
    home_score := "--", away_score := "--", time := "TBD",
    date := some "10/11/2025", sport := "Unknown", status := "scheduled",
    location := some "Court Complex, Court 3", league := none,
    home_record := none, away_record := none }

def recC7b : Game :=
  { game_id := "", home_team := "H2", away_team := "A2",
    home_score := "--", away_score := "--", time := "TBD",
    date := some "10/11/2025", sport := "Unknown", status := "scheduled",
    location := some "Court Complex", league := none,
    home_record := none, away_record := none }

def recC7c : Game :=
  { game_id := "", home_team := "H3", away_team := "A3",
    home_score := "--", away_score := "--", time := "TBD",
    date := some "10/11/2025", sport := "Unknown", status := "scheduled",
    location := none, league := none,
    home_record := none, away_record := none }

/-- Document for the date-resolution witness. -/
def soupC9 : Node :=
  el "[document]" [] []
    [el "div" ["match"] [] [
      el "a" ["teamHome"] [] [txt "T1"],
      el "a" ["teamAway"] [] [txt "T2"]]]

def recC9 : Game :=
  { game_id := "", home_team := "T1", away_team := "T2",
    home_score := "--", away_score := "--", time := "TBD",
    date := some "10/4/2025", sport := "Unknown", status := "scheduled",
    location := none, league := none, home_record := none, away_record := none }

/-! ### Induction principle for the nested node/forest structure -/

mutual
/-- Simultaneous induction over a node and its forest of children. -/
def nodeInd (P : Node → Prop) (Q : List Node → Prop)
    (ht : ∀ s, P (.text s))
    (he : ∀ t c a ch, Q ch → P (.elem t c a ch))
    (hn : Q [])
    (hc : ∀ n ns, P n → Q ns → Q (n :: ns)) : ∀ t, P t
  | .text s => ht s
  | .elem t c a ch => he t c a ch (forestInd P Q ht he hn hc ch)

/-- Forest half of `nodeInd`. -/
def forestInd (P : Node → Prop) (Q : List Node → Prop)
    (ht : ∀ s, P (.text s))
    (he : ∀ t c a ch, Q ch → P (.elem t c a ch))
    (hn : Q [])
    (hc : ∀ n ns, P n → Q ns → Q (n :: ns)) : ∀ l, Q l
  | [] => hn
  | n :: ns => hc n ns (nodeInd P Q ht he hn hc n) (forestInd P Q ht he hn hc ns)
end

/-- Both halves of the simultaneous induction at once. -/
def bothInd (P : Node → Prop) (Q : List Node → Prop)
    (ht : ∀ s, P (.text s))
    (he : ∀ t c a ch, Q ch → P (.elem t c a ch))
    (hn : Q [])
    (hc : ∀ n ns, P n → Q ns → Q (n :: ns)) : (∀ t, P t) ∧ (∀ l, Q l) :=
  ⟨nodeInd P Q ht he hn hc, forestInd P Q ht he hn hc⟩

/-! ## Theorems -/

/-- A record emitted by the detailed per-container body comes from a
container with both team elements present, and is exactly `mkGameW`. -/
theorem parseGameW_some {g : Node} {d : Option String} {rec : Game}
    (h : parseGameW g d = some rec) :
    ∃ he ae, homeTeamElemW g = some he ∧ awayTeamElemW g = some ae ∧
      rec = mkGameW g d he ae := by
  rcases hh : homeTeamElemW g with _ | he
  · rcases ha : awayTeamElemW g with _ | ae <;> simp [parseGameW, hh, ha] at h
  · rcases ha : awayTeamElemW g with _ | ae
    · simp [parseGameW, hh, ha] at h
    · refine ⟨he, ae, rfl, rfl, ?_⟩
      simp [parseGameW, hh, ha] at h
      exact h.symm

/-- Same for the simplified per-container body. -/
theorem parseGameS_some {g : Node} {d : Option String} {rec : Game}
    (h : parseGameS g d = some rec) :
    ∃ he ae, selectOne g (fun n => n.hasClass "teamHome") = some he ∧
      selectOne g (fun n => n.hasClass "teamAway") = some ae ∧
      rec = mkGameS g d he ae := by
  rcases hh : selectOne g (fun n => n.hasClass "teamHome") with _ | he
  · rcases ha : selectOne g (fun n => n.hasClass "teamAway") with _ | ae <;>
      simp [parseGameS, hh, ha] at h
  · rcases ha : selectOne g (fun n => n.hasClass "teamAway") with _ | ae
    · simp [parseGameS, hh, ha] at h
    · refine ⟨he, ae, rfl, rfl, ?_⟩
      simp [parseGameS, hh, ha] at h
      exact h.symm

theorem mkGameW_status (g : Node) (d : Option String) (he ae : Node) :
    (mkGameW g d he ae).status =
      (classifyW (homeScoreTextW g) (awayScoreTextW g) (isForfeitW g)).1 := rfl

theorem mkGameS_status (g : Node) (d : Option String) (he ae : Node) :
    (mkGameS g d he ae).status = statusS (homeScoreTextS g) (awayScoreTextS g) := rfl

theorem pyIsdigit_unscored : pyIsdigit "--" = false := by decide

/-- With the forfeit flag set, the detailed classifier always says
`forfeit`. -/
theorem classifyW_fst_forf (hs aw : String) :
    (classifyW hs aw true).1 = "forfeit" := by
  unfold classifyW
  split
  · rfl
  · split
    · rfl
    · rfl

/-- The detailed classifier says `completed` exactly on two numeric
scores with the forfeit flag clear. -/
theorem classifyW_completed (hs aw : String) (f : Bool) :
    (classifyW hs aw f).1 = "completed" ↔
      pyIsdigit hs = true ∧ pyIsdigit aw = true ∧ f = false := by
  cases f
  · unfold classifyW
    split
    · rename_i hcond
      rw [Bool.and_eq_true, beq_iff_eq, beq_iff_eq] at hcond
      constructor
      · intro hEq; exact absurd hEq (by decide)
      · rintro ⟨h1, -, -⟩
        rw [hcond.1] at h1
        exact absurd h1 (by simp [pyIsdigit_unscored])
    · split
      · rename_i hdig
        rw [Bool.and_eq_true] at hdig
        simp [hdig.1, hdig.2]
      · rename_i hdig
        rw [Bool.and_eq_true] at hdig
        constructor
        · intro hEq; exact absurd hEq (by simp)
        · rintro ⟨h1, h2, -⟩; exact absurd (And.intro h1 h2) hdig
  · constructor
    · intro hEq; rw [classifyW_fst_forf] at hEq; exact absurd hEq (by decide)
    · rintro ⟨-, -, hf⟩; exact absurd hf (by decide)

/-- The detailed classifier says `scheduled` only on two sentinel scores
with the forfeit flag clear. -/
theorem classifyW_scheduled (hs aw : String) (f : Bool)
    (h : (classifyW hs aw f).1 = "scheduled") :
    hs = "--" ∧ aw = "--" ∧ f = false := by
  cases f
  · unfold classifyW at h
    split at h
    · rename_i hcond
      rw [Bool.and_eq_true, beq_iff_eq, beq_iff_eq] at hcond
      exact ⟨hcond.1, hcond.2, rfl⟩
    · split at h
      · exact absurd h (by simp)
      · exact absurd h (by simp)
  · rw [classifyW_fst_forf] at h; exact absurd h (by decide)

/-- With the forfeit flag clear, one non-sentinel score next to a
sentinel score classifies as `unknown`. -/
theorem classifyW_unknown_of_one (hs aw : String)
    (h : (hs ≠ "--" ∧ aw = "--") ∨ (hs = "--" ∧ aw ≠ "--")) :
    (classifyW hs aw false).1 = "unknown" := by
  unfold classifyW
  split
  · rename_i hcond
    rw [Bool.and_eq_true, beq_iff_eq, beq_iff_eq] at hcond
    rcases h with ⟨h1, -⟩ | ⟨-, h2⟩
    · exact absurd hcond.1 h1
    · exact absurd hcond.2 h2
  · split
    · rename_i hdig
      rw [Bool.and_eq_true] at hdig
      rcases h with ⟨-, h2⟩ | ⟨h1, -⟩
      · rw [h2] at hdig
        exact absurd hdig.2 (by simp [pyIsdigit_unscored])
      · rw [h1] at hdig
        exact absurd hdig.1 (by simp [pyIsdigit_unscored])
    · rfl

/-- The simplified status ladder says `scheduled` exactly when either
score text is the sentinel. -/
theorem statusS_scheduled_iff (hs aw : String) :
    statusS hs aw = "scheduled" ↔ hs = "--" ∨ aw = "--" := by
  unfold statusS
  split
  · rename_i hcond
    rw [Bool.or_eq_true, beq_iff_eq, beq_iff_eq] at hcond
    simp [hcond]
  · rename_i hcond
    rw [Bool.or_eq_true, beq_iff_eq, beq_iff_eq] at hcond
    push_neg at hcond
    split
    · constructor
      · intro hEq; exact absurd hEq (by decide)
      · intro hOr; exact absurd hOr (by simp [hcond.1, hcond.2])
    · constructor
      · intro hEq; exact absurd hEq (by decide)
      · intro hOr; exact absurd hOr (by simp [hcond.1, hcond.2])

/-- The simplified status ladder says `completed` exactly on two numeric
score texts. -/
theorem statusS_completed_iff (hs aw : String) :
    statusS hs aw = "completed" ↔ pyIsdigit hs = true ∧ pyIsdigit aw = true := by
  unfold statusS
  split
  · rename_i hcond
    rw [Bool.or_eq_true, beq_iff_eq, beq_iff_eq] at hcond
    constructor
    · intro hEq; exact absurd hEq (by decide)
    · rintro ⟨h1, h2⟩
      rcases hcond with hc | hc
      · rw [hc] at h1; exact absurd h1 (by simp [pyIsdigit_unscored])
      · rw [hc] at h2; exact absurd h2 (by simp [pyIsdigit_unscored])
  · split
    · rename_i hdig
      rw [Bool.and_eq_true] at hdig
      simp [hdig.1, hdig.2]
    · rename_i hdig
      rw [Bool.and_eq_true] at hdig
      constructor
      · intro hEq; exact absurd hEq (by decide)
      · intro hAnd; exact absurd hAnd hdig

/-- C1 (counterexample): a container whose first muted element is a
win-loss record and whose second muted element says "Forfeit" is emitted
with status `scheduled`, although a forfeit marker is present in a muted
element of the container. -/
theorem c1_counterexample :
    parseGamesHtmlWithDates soupC1 = [recC1] ∧
      mutedForfeitAnywhereB gameC1 = true ∧ recC1.status ≠ "forfeit" :=
  ⟨rfl, rfl, by decide⟩

/-- C1 (amended): in `parse_games_html_with_dates`, whenever the *first*
muted/secondary text element of the container (in document order)
contains a forfeit/default marker, case-insensitively, the emitted
record's status is `forfeit`, irrespective of the score values. -/
theorem c1_first_muted_marker_forces_forfeit :
    ∀ (g : Node) (d : Option String) (rec : Game),
      parseGameW g d = some rec → isForfeitW g = true → rec.status = "forfeit" := by
  intro g d rec h hf
  obtain ⟨he, ae, -, -, hrec⟩ := parseGameW_some h
  subst hrec
  rw [mkGameW_status, hf]
  exact classifyW_fst_forf _ _

/-- Witness for C1's amended theorem at a concrete container. -/
theorem c1_witness : recW1.status = "forfeit" :=
  c1_first_muted_marker_forces_forfeit gameW1 (some "10/1/2025") recW1 rfl rfl

/-- C2 (counterexample): the simplified entry point `parse_games_html`
emits status `completed` for a container that carries a forfeit marker
(in its very first muted element). -/
theorem c2_counterexample :
    parseGamesHtml soupC2 (some "10/5/2025") = [recC2] ∧
      isForfeitW gameC2 = true ∧ mutedForfeitAnywhereB gameC2 = true ∧
      recC2.status = "completed" :=
  ⟨rfl, rfl, rfl, rfl⟩

/-- C2 (amended): in `parse_games_html_with_dates` the emitted status is
`completed` iff both score texts are strictly numeric and the forfeit
detector found no marker; in `parse_games_html` it is `completed` iff
both score texts are strictly numeric, forfeit markers being ignored by
that entry point. -/
theorem c2_completed_characterization :
    ∀ (g : Node) (d : Option String) (rec : Game),
      (parseGameW g d = some rec →
        (rec.status = "completed" ↔
          pyIsdigit (homeScoreTextW g) = true ∧ pyIsdigit (awayScoreTextW g) = true ∧
            isForfeitW g = false))
      ∧ (parseGameS g d = some rec →
        (rec.status = "completed" ↔
          pyIsdigit (homeScoreTextS g) = true ∧ pyIsdigit (awayScoreTextS g) = true)) := by
  intro g d rec
  constructor
  · intro h
    obtain ⟨he, ae, -, -, hrec⟩ := parseGameW_some h
    subst hrec
    rw [mkGameW_status]
    exact classifyW_completed _ _ _
  · intro h
    obtain ⟨he, ae, -, -, hrec⟩ := parseGameS_some h
    subst hrec
    rw [mkGameS_status]
    exact statusS_completed_iff _ _

/-- Witness for C2's amended theorem at a concrete container. -/
theorem c2_witness :
    recW2.status = "completed" ↔
      pyIsdigit (homeScoreTextW gameW2) = true ∧
        pyIsdigit (awayScoreTextW gameW2) = true ∧ isForfeitW gameW2 = false :=
  (c2_completed_characterization gameW2 (some "10/2/2025") recW2).1 rfl

/-- C3 (counterexample): the simplified entry point `parse_games_html`
emits status `scheduled` (not `unknown`) for a container with one
numeric score present and the other score absent, with no forfeit
marker. -/
theorem c3_counterexample :
    parseGamesHtml soupC3 (some "10/6/2025") = [recC3] ∧
      recC3.home_score = "21" ∧ recC3.away_score = "--" ∧
      recC3.status = "scheduled" :=
  ⟨rfl, rfl, rfl, rfl⟩

/-- C3 (amended): in `parse_games_html_with_dates`, status `scheduled`
occurs only when both score texts are the sentinel and no forfeit marker
was found, and a container with exactly one non-sentinel score and no
forfeit marker yields `unknown`; in `parse_games_html`, status is
`scheduled` exactly when either score text is the sentinel. -/
theorem c3_scheduled_characterization :
    ∀ (g : Node) (d : Option String) (rec : Game),
      (parseGameW g d = some rec →
        (rec.status = "scheduled" →
          homeScoreTextW g = "--" ∧ awayScoreTextW g = "--" ∧ isForfeitW g = false)
        ∧ (isForfeitW g = false →
            ((homeScoreTextW g ≠ "--" ∧ awayScoreTextW g = "--") ∨
             (homeScoreTextW g = "--" ∧ awayScoreTextW g ≠ "--")) →
            rec.status = "unknown"))
      ∧ (parseGameS g d = some rec →
        (rec.status = "scheduled" ↔ homeScoreTextS g = "--" ∨ awayScoreTextS g = "--")) := by
  intro g d rec
  constructor
  · intro h
    obtain ⟨he, ae, -, -, hrec⟩ := parseGameW_some h
    subst hrec
    rw [mkGameW_status]
    constructor
    · intro hsch
      obtain ⟨h1, h2, h3⟩ := classifyW_scheduled _ _ _ hsch
      exact ⟨h1, h2, h3⟩
    · intro hf hone
      rw [hf]
      exact classifyW_unknown_of_one _ _ hone
  · intro h
    obtain ⟨he, ae, -, -, hrec⟩ := parseGameS_some h
    subst hrec
    rw [mkGameS_status]
    exact statusS_scheduled_iff _ _

/-- Witness for C3's amended theorem at a concrete container. -/
theorem c3_witness : recW3.status = "unknown" :=
  ((c3_scheduled_characterization gameW3 (some "10/3/2025") recW3).1 rfl).2
    (by decide) (Or.inl (by decide))

/-- The detailed per-container body succeeds exactly when both team
elements are located. -/
theorem parseGameW_isSome (g : Node) (d : Option String) :
    (parseGameW g d).isSome = !skipW g := by
  unfold skipW
  cases hh : homeTeamElemW g <;> cases ha : awayTeamElemW g <;>
    simp [parseGameW, hh, ha]

/-- The simplified per-container body succeeds exactly when both team
elements are located. -/
theorem parseGameS_isSome (g : Node) (d : Option String) :
    (parseGameS g d).isSome = !skipS g := by
  unfold skipS
  cases hh : selectOne g (fun n => n.hasClass "teamHome") <;>
    cases ha : selectOne g (fun n => n.hasClass "teamAway") <;>
    simp [parseGameS, hh, ha]

theorem length_filterMap_eq_countP (f : α → Option β) (l : List α) :
    (l.filterMap f).length = l.countP (fun a => (f a).isSome) := by
  induction l with
  | nil => rfl
  | cons a t ih =>
    cases hfa : f a <;>
      simp [List.filterMap_cons, hfa, List.countP_cons, ih, Nat.add_comm]

theorem countP_not_eq_sub (p : α → Bool) (l : List α) :
    l.countP (fun a => !p a) = l.length - l.countP p := by
  induction l with
  | nil => rfl
  | cons a t ih =>
    have hle := @List.countP_le_length _ p t
    by_cases h : p a = true <;>
      simp [List.countP_cons, h, ih]
    all_goals omega

/-- C4 (counterexample): a container whose home-team anchor exists but
contains only whitespace is emitted with an empty `home_team` field. -/
theorem c4_counterexample :
    parseGamesHtmlWithDates soupC4 = [recC4] ∧ recC4.home_team = "" :=
  ⟨rfl, rfl⟩

/-- C4 (amended): in both entry points a container is skipped exactly
when one of its team *elements* cannot be located, and the number of
emitted records is the number of containers minus the skipped ones.
(The team-name *text* of a located element may still be empty.) -/
theorem c4_skipped_containers :
    ∀ (cs : List Node) (d : Option String),
      ((cs.filterMap (fun g => parseGameW g d)).length = cs.length - cs.countP skipW)
      ∧ ((cs.filterMap (fun g => parseGameS g d)).length = cs.length - cs.countP skipS)
      ∧ (∀ g, (parseGameW g d).isSome = !skipW g ∧ (parseGameS g d).isSome = !skipS g) := by
  intro cs d
  refine ⟨?_, ?_, fun g => ⟨parseGameW_isSome g d, parseGameS_isSome g d⟩⟩
  · rw [length_filterMap_eq_countP, ← countP_not_eq_sub skipW cs]
    exact List.countP_congr (fun g _ => by rw [parseGameW_isSome g d])
  · rw [length_filterMap_eq_countP, ← countP_not_eq_sub skipS cs]
    exact List.countP_congr (fun g _ => by rw [parseGameS_isSome g d])

/-- C5: in both entry points a container that fails to produce a record
contributes nothing, and every other container is still processed: the
per-section output around it is the concatenation of the outputs of the
containers before and after it.  (Both embedded parsers are total
functions: on any input tree they return a list and cannot fail;
the only skip condition is a missing team element, and Python-side
exceptions in one container's `try` body are caught by the per-container
handler, which this `Option`-valued body models.) -/
theorem c5_per_record_isolation :
    ∀ (pre post : List Node) (bad : Node) (d : Option String),
      (parseGameW bad d = none →
        (pre ++ bad :: post).filterMap (fun g => parseGameW g d) =
          pre.filterMap (fun g => parseGameW g d) ++ post.filterMap (fun g => parseGameW g d))
      ∧ (parseGameS bad d = none →
        (pre ++ bad :: post).filterMap (fun g => parseGameS g d) =
          pre.filterMap (fun g => parseGameS g d) ++ post.filterMap (fun g => parseGameS g d)) := by
  intro pre post bad d
  constructor <;> intro h <;>
    simp [List.filterMap_append, List.filterMap_cons, h]

/-- Witness for C5 at a concrete container list. -/
theorem c5_witness :
    ([gameW5] ++ gameW5bad :: [gameW5]).filterMap (fun g => parseGameW g (some "10/1/2025")) =
      [gameW5].filterMap (fun g => parseGameW g (some "10/1/2025")) ++
        [gameW5].filterMap (fun g => parseGameW g (some "10/1/2025")) :=
  (c5_per_record_isolation [gameW5] [gameW5] gameW5bad (some "10/1/2025")).1 rfl

theorem flatMap_nil_of_forall (l : List α) (f : α → List β)
    (h : ∀ a ∈ l, f a = []) : l.flatMap f = [] := by
  induction l with
  | nil => rfl
  | cons a t ih =>
    rw [List.flatMap_cons, h a (by simp), ih (fun x hx => h x (by simp [hx]))]
    rfl

/-- Unrolling of the aggregation loop into the explicit ascending list of
days. -/
theorem aggLoop_eq_range (fetch : Int → Option (List Game)) :
    ∀ (n : Nat) (endD c : Int), endD + 1 - c = n →
      aggLoop fetch endD c = (List.range n).flatMap (fun i => (fetch (c + i)).getD []) := by
  intro n
  induction n with
  | zero =>
    intro endD c h
    rw [aggLoop, dif_neg (by omega)]
    rfl
  | succ n ih =>
    intro endD c h
    rw [aggLoop, dif_pos (by omega : c ≤ endD)]
    rw [List.range_succ_eq_map, List.flatMap_cons, List.flatMap_map]
    rw [ih endD (c + 1) (by omega)]
    have h0 : (fetch (c + (0 : Nat))).getD [] = fetchDay fetch c := by
      simp [fetchDay]
    rw [h0]
    refine congrArg (fetchDay fetch c ++ ·) ?_
    refine congrArg (List.range n).flatMap (funext fun i => ?_)
    have harg : c + 1 + (i : Int) = c + ((Nat.succ i : Nat) : Int) := by push_cast; ring
    rw [harg]

/-- C6: the aggregator visits exactly the 11 calendar days from
`today - 3` through `today + 7`, in ascending order, appending each
day's records in that order, a failed fetch contributing the empty
list; if every day's fetch fails the result is the empty collection. -/
theorem c6_day_aggregator :
    ∀ (today : Int) (fetch : Int → Option (List Game)),
      (fetchAllGames today fetch =
        (List.range 11).flatMap (fun i => (fetch (today - 3 + i)).getD []))
      ∧ ((∀ d : Int, today - 3 ≤ d → d ≤ today + 7 → fetch d = none) →
          fetchAllGames today fetch = []) := by
  intro today fetch
  have h1 : fetchAllGames today fetch =
      (List.range 11).flatMap (fun i => (fetch (today - 3 + i)).getD []) := by
    unfold fetchAllGames
    exact aggLoop_eq_range fetch 11 (today + 7) (today - 3) (by omega)
  refine ⟨h1, fun hall => ?_⟩
  rw [h1]
  refine flatMap_nil_of_forall _ _ (fun i hi => ?_)
  have hlt : i < 11 := List.mem_range.mp hi
  rw [hall (today - 3 + i) (by omega) (by omega)]
  rfl

/-- Witness for C6: a window in which every fetch fails yields `[]`. -/
theorem c6_witness : fetchAllGames 0 (fun _ => none) = [] :=
  (c6_day_aggregator 0 (fun _ => none)).2 (fun _ _ _ => rfl)

/-- C7: for every emitted record of the detailed parser, the location
field is `"{facility}, {court}"` when both the facility and the court
elements are present, the facility text when only the facility element
is present, and absent when the facility element is absent (in
particular when only the court element is present). -/
theorem c7_location_resolver :
    ∀ (g : Node) (d : Option String) (rec : Game),
      parseGameW g d = some rec →
        ((∀ f c, selectOne g (fun n => n.hasClass "match-facility") = some f →
            selectOne g (fun n => n.hasClass "iml-game-court") = some c →
            rec.location = some (f.getText ++ ", " ++ c.getText))
        ∧ (∀ f, selectOne g (fun n => n.hasClass "match-facility") = some f →
            selectOne g (fun n => n.hasClass "iml-game-court") = none →
            rec.location = some f.getText)
        ∧ (selectOne g (fun n => n.hasClass "match-facility") = none →
            rec.location = none)) := by
  intro g d rec h
  obtain ⟨he, ae, -, -, hrec⟩ := parseGameW_some h
  subst hrec
  refine ⟨?_, ?_, ?_⟩
  · intro f c hf hc
    show locationW g = _
    simp [locationW, hf, hc]
  · intro f hf hc
    show locationW g = _
    simp [locationW, hf, hc]
  · intro hf
    show locationW g = _
    simp [locationW, hf]

/-- Witness for C7 at the three concrete location cases. -/
theorem c7_witness :
    recC7a.location = some "Court Complex, Court 3" ∧
      recC7b.location = some "Court Complex" ∧ recC7c.location = none := by
  refine ⟨?_, ?_, ?_⟩
  · exact ((c7_location_resolver gameC7a (some "10/11/2025") recC7a rfl).1
      (el "div" ["match-facility"] [] [txt "Court Complex"])
      (el "div" ["iml-game-court"] [] [txt "Court 3"]) rfl rfl).trans (by decide)
  · exact ((c7_location_resolver gameC7b (some "10/11/2025") recC7b rfl).2.1
      (el "div" ["match-facility"] [] [txt "Court Complex"]) rfl rfl).trans (by decide)
  · exact (c7_location_resolver gameC7c (some "10/11/2025") recC7c rfl).2.2 rfl

/-- C9: every record emitted by `parse_games_html` carries the resolved
date of the whole fragment, and when a non-empty external date is
supplied the resolved date is exactly that external date — the
in-markup fallbacks (`#pNowDate`, `[gameday]`) are not consulted. -/
theorem c9_external_date :
    ∀ (soup : Node) (ds : Option String),
      (∀ rec ∈ parseGamesHtml soup ds, rec.date = resolveDateS soup ds)
      ∧ (∀ s : String, ds = some s → s ≠ "" → resolveDateS soup ds = some s) := by
  intro soup ds
  constructor
  · intro rec hmem
    simp only [parseGamesHtml, List.mem_filterMap] at hmem
    obtain ⟨g, -, hg⟩ := hmem
    obtain ⟨he, ae, -, -, hrec⟩ := parseGameS_some hg
    subst hrec
    rfl
  · intro s hds hs
    subst hds
    have ht : pyTruthy (some s) = true := by
      simp [pyTruthy, Option.getD, beq_eq_false_iff_ne, hs]
    simp [resolveDateS, ht]

/-- Witness for C9 at a concrete document and supplied date. -/
theorem c9_witness :
    resolveDateS soupC9 (some "10/4/2025") = some "10/4/2025" ∧
      recC9.date = some "10/4/2025" := by
  refine ⟨(c9_external_date soupC9 (some "10/4/2025")).2 "10/4/2025" rfl (by decide), ?_⟩
  exact ((c9_external_date soupC9 (some "10/4/2025")).1 recC9 (by decide)).trans
    ((c9_external_date soupC9 (some "10/4/2025")).2 "10/4/2025" rfl (by decide))

/-! ### Path-annotated traversal: structural lemmas (for C8) -/

/-- The path-annotated traversal visits exactly the plain descendants,
in the same order. -/
theorem descP_snd_both :
    (∀ t : Node, ∀ p, (descendantsP p t).map (fun x => x.2) = t.descendants)
    ∧ (∀ l : List Node, ∀ p i, (descListP p i l).map (fun x => x.2) = Node.descList l) :=
  bothInd _ _
    (fun _ _ => rfl)
    (fun _ _ _ ch ih p => ih p 0)
    (fun _ _ => rfl)
    (fun n ns ihn ihns p i => by
      simp only [descListP, Node.descList, List.map_cons, List.map_append]
      rw [ihn (p ++ [i]), ihns p (i + 1)])

/-- Every visited path strictly extends the root path; below a forest
member the head index of the extension is at least the member's index. -/
theorem descP_shape_both :
    (∀ t : Node, ∀ p, ∀ x ∈ descendantsP p t, ∃ r, r ≠ [] ∧ x.1 = p ++ r)
    ∧ (∀ l : List Node, ∀ p i, ∀ x ∈ descListP p i l, ∃ j r, i ≤ j ∧ x.1 = p ++ j :: r) :=
  bothInd _ _
    (fun _ p x hx => absurd hx (by simp [descendantsP]))
    (fun _ _ _ ch ih p x hx => by
      obtain ⟨j, r, -, hx1⟩ := ih p 0 x hx
      exact ⟨j :: r, by simp, hx1⟩)
    (fun p i x hx => absurd hx (by simp [descListP]))
    (fun n ns ihn ihns p i x hx => by
      rw [descListP, List.cons_append] at hx
      simp only [List.mem_cons, List.mem_append] at hx
      rcases hx with hx | hx | hx
      · subst hx
        exact ⟨i, [], Nat.le_refl i, rfl⟩
      · obtain ⟨r, hr, hx1⟩ := ihn (p ++ [i]) x hx
        refine ⟨i, r, Nat.le_refl i, ?_⟩
        rw [hx1, List.append_assoc]
        rfl
      · obtain ⟨j, r, hij, hx1⟩ := ihns p (i + 1) x hx
        exact ⟨j, r, by omega, hx1⟩)

/-- The visited paths are pairwise distinct. -/
theorem descP_nodup_both :
    (∀ t : Node, ∀ p, ((descendantsP p t).map (fun x => x.1)).Nodup)
    ∧ (∀ l : List Node, ∀ p i, ((descListP p i l).map (fun x => x.1)).Nodup) :=
  bothInd _ _
    (fun _ _ => by simp [descendantsP])
    (fun _ _ _ ch ih p => ih p 0)
    (fun p i => by simp [descListP])
    (fun n ns ihn ihns p i => by
      rw [descListP, List.cons_append]
      simp only [List.map_cons, List.map_append]
      rw [List.nodup_cons, List.nodup_append]
      refine ⟨?_, ihn (p ++ [i]), ihns p (i + 1), ?_⟩
      · intro hmem
        rcases List.mem_append.mp hmem with hm | hm
        · obtain ⟨x, hx, hxeq⟩ := List.mem_map.mp hm
          obtain ⟨r, hr, h1⟩ := descP_shape_both.1 n (p ++ [i]) x hx
          rw [h1] at hxeq
          have hlen := congrArg List.length hxeq
          rw [List.length_append] at hlen
          have hr0 : r.length = 0 := by omega
          exact hr (List.length_eq_zero.mp hr0)
        · obtain ⟨x, hx, hxeq⟩ := List.mem_map.mp hm
          obtain ⟨j, r, hij, h1⟩ := descP_shape_both.2 ns p (i + 1) x hx
          rw [h1] at hxeq
          have h2 := List.append_cancel_left hxeq
          have : j = i := (List.cons.injEq _ _ _ _ ▸ h2).1
          omega
      · intro q hq hq'
        obtain ⟨x, hx, hxeq⟩ := List.mem_map.mp hq
        obtain ⟨r1, hr1, h1⟩ := descP_shape_both.1 n (p ++ [i]) x hx
        obtain ⟨y, hy, hyeq⟩ := List.mem_map.mp hq'
        obtain ⟨j, r2, hij, h2⟩ := descP_shape_both.2 ns p (i + 1) y hy
        rw [← hxeq, h1, List.append_assoc] at hyeq
        rw [h2] at hyeq
        have h3 := List.append_cancel_left hyeq.symm
        have h4 := (List.cons.injEq _ _ _ _ ▸ h3).1
        omega)

theorem pathPre_append (p r : List Nat) : pathPre p (p ++ r) = true := by
  induction p with
  | nil => rfl
  | cons a as1 ih => simp [pathPre, ih]

/-- Two initial segments of the same path are comparable. -/
theorem pathPre_total :
    ∀ (q a b : List Nat), pathPre a q = true → pathPre b q = true →
      pathPre a b = true ∨ pathPre b a = true := by
  intro q
  induction q with
  | nil =>
    intro a b ha hb
    cases a with
    | nil => exact Or.inl rfl
    | cons x xs => exact absurd ha (by simp [pathPre])
  | cons x xs ih =>
    intro a b ha hb
    cases a with
    | nil => exact Or.inl rfl
    | cons a1 as1 =>
      cases b with
      | nil => exact Or.inr rfl
      | cons b1 bs1 =>
        simp only [pathPre, Bool.and_eq_true, beq_iff_eq] at ha hb
        rcases ih as1 bs1 ha.2 hb.2 with h | h
        · refine Or.inl ?_
          simp only [pathPre, Bool.and_eq_true, beq_iff_eq]
          exact ⟨ha.1.trans hb.1.symm, h⟩
        · refine Or.inr ?_
          simp only [pathPre, Bool.and_eq_true, beq_iff_eq]
          exact ⟨hb.1.trans ha.1.symm, h⟩

/-- The container paths one section contributes are pairwise distinct. -/
theorem secPaths_nodup (ps : List Nat × Node) : (secPaths ps).Nodup := by
  unfold secPaths
  have h1 : (((descendantsP ps.1 ps.2).filter (fun x => isMatchB x.2)).map (fun x => x.1)).Sublist
      ((descendantsP ps.1 ps.2).map (fun x => x.1)) :=
    List.Sublist.map _ (List.filter_sublist _)
  exact List.Nodup.sublist h1 (descP_nodup_both.1 ps.2 ps.1)

/-- A section's container paths all extend the section's own path. -/
theorem secPaths_ext {ps : List Nat × Node} {q : List Nat} (h : q ∈ secPaths ps) :
    pathPre ps.1 q = true := by
  unfold secPaths at h
  obtain ⟨x, hx, hxq⟩ := List.mem_map.mp h
  obtain ⟨r, -, h1⟩ := descP_shape_both.1 ps.2 ps.1 x (List.mem_filter.mp hx).1
  rw [← hxq, h1]
  exact pathPre_append _ _

/-- Sections whose paths are pairwise non-extending contribute pairwise
disjoint container paths, so the concatenation has no duplicates. -/
theorem noNest_flatMap_nodup :
    ∀ secs : List (List Nat × Node), noNestAux (secs.map (fun x => x.1)) = true →
      (secs.flatMap secPaths).Nodup := by
  intro secs
  induction secs with
  | nil => intro _; simp
  | cons s rest ih =>
    intro h
    simp only [List.map_cons, noNestAux, Bool.and_eq_true] at h
    rw [List.flatMap_cons, List.nodup_append]
    refine ⟨secPaths_nodup s, ih h.2, fun q hq hq' => ?_⟩
    obtain ⟨s', hs', hqs'⟩ := List.mem_flatMap.mp hq'
    have h1 : pathPre s.1 q = true := secPaths_ext hq
    have h2 : pathPre s'.1 q = true := secPaths_ext hqs'
    have hall := (List.all_eq_true.mp h.1) s'.1 (List.mem_map.mpr ⟨s', hs', rfl⟩)
    rw [Bool.and_eq_true] at hall
    rcases pathPre_total q s.1 s'.1 h1 h2 with hT | hT
    · rw [hT] at hall
      simp at hall
    · rw [hT] at hall
      simp at hall

/-- The attempt paths are the concatenation of the sections' container
paths. -/
theorem attemptsP_fst (soup : Node) :
    (attemptsP soup).map (fun t => t.1) = (sectionsP soup).flatMap secPaths := by
  unfold attemptsP secPaths
  rw [List.map_flatMap]
  refine congrArg (sectionsP soup).flatMap (funext fun ps => ?_)
  rw [List.map_map]
  rfl

theorem map_filter_snd (l : List (α × β)) (q : β → Bool) :
    (l.filter (fun x => q x.2)).map (fun x => x.2) = (l.map (fun x => x.2)).filter q := by
  induction l with
  | nil => rfl
  | cons a t ih =>
    by_cases hq : q a.2 = true <;> simp [List.filter_cons, hq, ih]

theorem filterMap_filter_attempts (l : List (List Nat × Node)) (d : Option String) :
    (l.filter (fun x => isMatchB x.2)).filterMap
        ((fun t : List Nat × Node × Option String => parseGameW t.2.1 t.2.2) ∘
          (fun x => (x.1, x.2, d))) =
      ((l.map (fun x => x.2)).filter isMatchB).filterMap (fun g => parseGameW g d) := by
  induction l with
  | nil => rfl
  | cons a t ih =>
    by_cases hq : isMatchB a.2 = true <;>
      simp [List.filter_cons, hq, List.filterMap_cons, ih, Function.comp]

/-- The day sections are the second components of the path-annotated
sections. -/
theorem daySections_eq (soup : Node) :
    daySections soup = (sectionsP soup).map (fun x => x.2) := by
  unfold daySections sectionsP selectAll
  rw [map_filter_snd, descP_snd_both.1 soup []]
  rfl

/-- The multi-day extractor's output is exactly the per-attempt parses,
in attempt order: day sections in the order `select` returns them, and
containers within a section in the order `select` returns them. -/
theorem withDates_eq_attempts (soup : Node) :
    parseGamesHtmlWithDates soup =
      (attemptsP soup).filterMap (fun t => parseGameW t.2.1 t.2.2) := by
  unfold parseGamesHtmlWithDates attemptsP
  rw [List.filterMap_flatMap, daySections_eq, List.flatMap_map]
  refine congrArg (sectionsP soup).flatMap (funext fun ps => ?_)
  rw [List.filterMap_map, filterMap_filter_attempts, descP_snd_both.1 ps.2 ps.1]
  rfl

/-- C8 (counterexample): with one day section nested inside another, the
single game container is extracted twice and its record appears twice in
the output. -/
theorem c8_counterexample :
    parseGamesHtmlWithDates soupC8 = [recC8, recC8] ∧
      (matchContainers soupC8).length = 1 :=
  ⟨rfl, rfl⟩

/-- C8 (amended): the multi-day extractor's output is the concatenation,
over day sections in document order, of the records of that section's
containers in document order; and provided no day section lies inside
another day section, no game container (identified by its path in the
document) is subject to more than one extraction attempt.  When day
sections are nested, the containers of the inner section are attempted
once per enclosing section. -/
theorem c8_order_and_uniqueness :
    ∀ soup : Node,
      (parseGamesHtmlWithDates soup =
        (attemptsP soup).filterMap (fun t => parseGameW t.2.1 t.2.2))
      ∧ (sectionsNonNested soup = true →
          ((attemptsP soup).map (fun t => t.1)).Nodup) := by
  intro soup
  refine ⟨withDates_eq_attempts soup, fun h => ?_⟩
  rw [attemptsP_fst]
  exact noNest_flatMap_nodup _ h

/-- Witness for C8 at a document with two sibling day sections. -/
theorem c8_witness : ((attemptsP soupW8).map (fun t => t.1)).Nodup :=
  (c8_order_and_uniqueness soupW8).2 rfl

/-- C10: extraction is deterministic — both entry points are pure
functions of the markup tree (and supplied date), so two runs on
identical input give identical ordered output.  (The embedding threads
no state: purity holds by construction, matching the source, whose
parsers touch no mutable global state.) -/
theorem c10_extraction_deterministic :
    ∀ (soup : Node) (ds : Option String),
      parseGamesHtml soup ds = parseGamesHtml soup ds ∧
        parseGamesHtmlWithDates soup = parseGamesHtmlWithDates soup :=
  fun _ _ => ⟨rfl, rfl⟩

end IM
